import Mathlib

/-!
# QuickServe: verification of the provider discovery/ranking pipeline and the collection store

Shallow embedding of the QuickServe front-end core:

* `js/views/home.view.js` — `ProvidersView`: filter predicate (`applyFilters`),
  sort comparators (`sortProviders`), relevance scoring
  (`calculateRelevanceScore`), pagination (`renderProviders`,
  `createPagination`).
* `js/utils/storage.js` — `StorageManager`: named collections over a single
  document, `addToCollection` / `updateInCollection` / `findInCollection`.
* `js/services/api.service.js` — `ApiService`: timeout mapping, retry loop,
  `shouldNotRetry`, `getRetryDelay`.

Modelling conventions:

* JavaScript numbers are modelled as rationals (`ℚ`); the arithmetic used by
  the pipeline (+, -, *, /, min, max, comparisons) is exact on the values of
  interest.
* JavaScript truthiness on `provider.distance` matters: `undefined` and `0`
  are both falsy.  A provider's `distance` field is `Option ℚ`, and the
  truthiness test is `distance` present *and* nonzero.
* `Array.prototype.sort(cmp)` is stable (ECMAScript 2019) and every comparator
  in `sortProviders` is induced by a total preorder, so the sort is modelled
  by the stable `List.insertionSort` on the relation `cmp a b ≤ 0`.
* JavaScript objects are modelled as association lists `List (String × Value)`
  with first-match lookup; property assignment / object spread replaces the
  first binding in place (or appends), matching JS key ordering.
* Nondeterministic environment inputs (generated ids, `new Date()`
  timestamps, `fetch` outcomes) are passed in as explicit parameters.
-/

/-- JSON-ish values stored in entity fields. -/
inductive Value where
  | str (s : String)
  | num (q : ℚ)
  | bool (b : Bool)
  | null
deriving DecidableEq

/-- A provider entity, with the fields read by the filter/sort/score pipeline in
`home.view.js`.  `distance` is the derived field that may be absent
(`undefined` in JS) — and JS truthiness additionally treats `0` as absent.
-/
structure Provider where
  id : String := ""
  name : String := ""
  services : List String := []
  rating : ℚ := 0
  reviewCount : ℚ := 0
  experience : ℚ := 0
  basePrice : ℚ := 0
  availability : String := ""
  verificationLevel : String := ""
  distance : Option ℚ := none
deriving DecidableEq

namespace QuickServe

/-- JS truthiness of `provider.distance`: present and nonzero
(`!provider.distance` is `true` for both `undefined` and `0`). -/
def distTruthy (p : Provider) : Bool :=
  match p.distance with
  | none => false
  | some d => d != 0

/-- The numeric value of `provider.distance` when it is used
(only ever read under a `distTruthy` guard). -/
def distVal (p : Provider) : ℚ :=
  p.distance.getD 0

/-- Model of `ProvidersView.calculateRelevanceScore` (home.view.js:616-637):

    let score = 0;
    score += provider.rating * 0.4 * 20;
    if (provider.availability === 'available') score += 25;
    if (provider.distance) score += Math.max(0, (50 - provider.distance)) * 0.4;
    score += Math.min(provider.experience, 20) * 0.5;
    score += Math.min(provider.reviewCount / 10, 20) * 0.25;
-/
def calculateRelevanceScore (p : Provider) : ℚ :=
  p.rating * (4/10) * 20
    + (if p.availability = "available" then 25 else 0)
    + (if distTruthy p then max 0 (50 - distVal p) * (4/10) else 0)
    + min p.experience 20 * (5/10)
    + min (p.reviewCount / 10) 20 * (25/100)

/-- The `case 'rating'` comparator: `b.rating - a.rating`. -/
def cmpRating (a b : Provider) : ℚ := b.rating - a.rating

/-- The `case 'price_low'` comparator: `a.basePrice - b.basePrice`. -/
def cmpPriceLow (a b : Provider) : ℚ := a.basePrice - b.basePrice

/-- The `case 'price_high'` comparator: `b.basePrice - a.basePrice`. -/
def cmpPriceHigh (a b : Provider) : ℚ := b.basePrice - a.basePrice

/-- The `case 'distance'` comparator (home.view.js:587-591):

    if (!a.distance && !b.distance) return 0;
    if (!a.distance) return 1;
    if (!b.distance) return -1;
    return a.distance - b.distance;
-/
def cmpDistance (a b : Provider) : ℚ :=
  if !distTruthy a && !distTruthy b then 0
  else if !distTruthy a then 1
  else if !distTruthy b then -1
  else distVal a - distVal b

/-- The `case 'experience'` comparator: `b.experience - a.experience`. -/
def cmpExperience (a b : Provider) : ℚ := b.experience - a.experience

/-- The `case 'reviews'` comparator: `b.reviewCount - a.reviewCount`. -/
def cmpReviews (a b : Provider) : ℚ := b.reviewCount - a.reviewCount

/-- The `case 'availability'` comparator (home.view.js:599-602). -/
def cmpAvailability (a b : Provider) : ℚ :=
  if a.availability = "available" ∧ b.availability ≠ "available" then -1
  else if b.availability = "available" ∧ a.availability ≠ "available" then 1
  else 0

/-- The `default:` (relevance) comparator: `scoreB - scoreA`. -/
def cmpRelevance (a b : Provider) : ℚ :=
  calculateRelevanceScore b - calculateRelevanceScore a

/-- The `switch (sortBy)` dispatch in `ProvidersView.sortProviders`
(home.view.js:573-611); any unrecognised value falls through to the
relevance comparator (`default:`). -/
def sortCompare (sortBy : String) (a b : Provider) : ℚ :=
  if sortBy = "rating" then cmpRating a b
  else if sortBy = "price_low" then cmpPriceLow a b
  else if sortBy = "price_high" then cmpPriceHigh a b
  else if sortBy = "distance" then cmpDistance a b
  else if sortBy = "experience" then cmpExperience a b
  else if sortBy = "reviews" then cmpReviews a b
  else if sortBy = "availability" then cmpAvailability a b
  else cmpRelevance a b

/-- The ordering induced by a JS comparator: `a` may precede `b`
iff `cmp(a, b) ≤ 0`. -/
def sortLE (sortBy : String) (a b : Provider) : Prop :=
  sortCompare sortBy a b ≤ 0

instance (sortBy : String) : DecidableRel (sortLE sortBy) := fun _ _ =>
  inferInstanceAs (Decidable (_ ≤ _))

/-- Model of `this.filteredProviders.sort(comparator)` — `Array.prototype.sort` is
required to be stable by the ECMAScript spec, and every comparator above is
induced by a total preorder, so the result is that of any stable sort on the
relation `cmp a b ≤ 0`; we use insertion sort. -/
def sortProviders (sortBy : String) (l : List Provider) : List Provider :=
  l.insertionSort (sortLE sortBy)

/-- The structured filter state `this.currentFilters` (home.view.js:53-63);
`priceRange` is split into its two entries, `sortBy` is handled by
`sortProviders`.  Defaults mirror the constructor. -/
structure Filters where
  service : String := ""
  rating : ℚ := 0
  priceLo : ℚ := 0
  priceHi : ℚ := 5000
  availability : String := ""
  verification : String := ""
  experience : ℚ := 0
  distance : ℚ := 50

/-- The distance clause of the `applyFilters` predicate (home.view.js:538-541):

    if (provider.distance && provider.distance > this.currentFilters.distance) {
        return false;
    }

A provider fails only when `provider.distance` is truthy (present and
nonzero) and exceeds the bound. -/
def distanceFilterPass (p : Provider) (maxDistanceKm : ℚ) : Bool :=
  !(distTruthy p && decide (distVal p > maxDistanceKm))

/-- The structured-filter part of the `applyFilters` predicate
(home.view.js:522-559), i.e. the provider-retention test for an empty search
query: each active filter may reject, otherwise the provider is kept. -/
def matchesFilters (f : Filters) (p : Provider) : Bool :=
  !(f.service != "" && !(p.services.contains f.service)) &&
  !(decide (f.rating > 0) && decide (p.rating < f.rating)) &&
  !(decide (p.basePrice < f.priceLo) || decide (p.basePrice > f.priceHi)) &&
  distanceFilterPass p f.distance &&
  !(f.availability != "" &&
      (f.availability == "available" && p.availability != "available")) &&
  !(f.verification != "" && p.verificationLevel != f.verification) &&
  !(decide (f.experience > 0) && decide (p.experience < f.experience))

/-- Model of `Array.prototype.slice(start, end)` for in-range indices. -/
def jsSlice (l : List Provider) (s e : ℕ) : List Provider :=
  (l.drop s).take (e - s)

/-- The pagination slice in `ProvidersView.renderProviders`
(home.view.js:646-649):

    const startIndex = (this.currentPage - 1) * this.providersPerPage;
    const endIndex = startIndex + this.providersPerPage;
    const paginatedProviders = this.filteredProviders.slice(startIndex, endIndex);

`page` is 1-based, `per` is `providersPerPage` (12 by default). -/
def renderPage (l : List Provider) (per page : ℕ) : List Provider :=
  jsSlice l ((page - 1) * per) ((page - 1) * per + per)

/-- Model of `Math.ceil(this.filteredProviders.length / this.providersPerPage)` in
`createPagination` (home.view.js:774), as exact natural ceiling division. -/
def totalPages (count per : ℕ) : ℕ :=
  (count + per - 1) / per

/-! ## Claim-side (spec-worded) definitions

These follow the specification text, to be compared with the definitions
above, which are translated from the source. -/

/-- The relevance score exactly as the specification words it: the distance
bonus `max(0, 50 - distanceKm) * 0.4` applies "when the provider has a
distance value (0 otherwise)". -/
def claimRelevanceScore (p : Provider) : ℚ :=
  p.rating * (4/10) * 20
    + (if p.availability = "available" then 25 else 0)
    + (match p.distance with
       | some d => max 0 (50 - d) * (4/10)
       | none => 0)
    + min p.experience 20 * (5/10)
    + min (p.reviewCount / 10) 20 * (25/100)

/-- The relevance score as amended to what the code computes: the distance
bonus applies only when the provider has a *nonzero* distance value (a zero
distance is falsy in JS and gets no bonus). -/
def amendedRelevanceScore (p : Provider) : ℚ :=
  p.rating * (4/10) * 20
    + (if p.availability = "available" then 25 else 0)
    + (match p.distance with
       | some d => if d = 0 then 0 else max 0 (50 - d) * (4/10)
       | none => 0)
    + min p.experience 20 * (5/10)
    + min (p.reviewCount / 10) 20 * (25/100)

/-- The distance-sort order exactly as the claim words it: providers with a
distance value in non-decreasing order, and every provider without a
distance value after every provider with one. -/
def claimDistLE (a b : Provider) : Prop :=
  match a.distance, b.distance with
  | some da, some db => da ≤ db
  | some _, none => True
  | none, some _ => False
  | none, none => True

instance : DecidableRel claimDistLE := fun a b => by
  unfold claimDistLE
  rcases a.distance with _ | da <;> rcases b.distance with _ | db <;>
    simp <;> infer_instance

/-- The distance-sort order the code implements: providers whose `distance`
is truthy (present and nonzero) in non-decreasing order of that value, and
every provider with a falsy `distance` (absent or zero) after every provider
with a truthy one. -/
def codeDistLE (a b : Provider) : Prop :=
  (distTruthy b → distTruthy a) ∧
  (distTruthy a → distTruthy b → distVal a ≤ distVal b)

/-! ## Storage layer (`js/utils/storage.js`, `StorageManager`)

JS objects are association lists with first-match lookup; property
assignment replaces the first binding in place, or appends a new one. -/

/-- Property read `o[k]`: first binding wins (JS objects have unique keys;
the operations below preserve that for objects built from JS values). -/
def assocGet {β : Type} (m : List (String × β)) (k : String) : Option β :=
  (m.find? (fun kv => kv.1 == k)).map (·.2)

/-- Property write `o[k] = v`: replace the first binding of `k` in place,
else append — exactly JS's key-ordering behaviour. -/
def assocSet {β : Type} : List (String × β) → String → β → List (String × β)
  | [], k, v => [(k, v)]
  | (k', v') :: rest, k, v =>
    if k' = k then (k, v) :: rest else (k', v') :: assocSet rest k v

/-- A stored entity: a JS object. -/
def Obj : Type := List (String × Value)

instance : DecidableEq Obj := inferInstanceAs (DecidableEq (List (String × Value)))

/-- Property read on an entity. -/
def objGet (o : Obj) (k : String) : Option Value := assocGet o k

/-- Object spread `{...a, ...b}`: `b`'s properties written over `a` in
order, so `b` wins on conflicts and `a`'s key order is preserved. -/
def objMerge (a b : Obj) : Obj :=
  b.foldl (fun acc kv => assocSet acc kv.1 kv.2) a

/-- The persisted document's `collections` map
(`data.collections` in storage.js). -/
structure Store where
  collections : List (String × List Obj)
deriving DecidableEq

/-- Model of `StorageManager.getCollection` (storage.js:77-80):
`data?.collections?.[collectionName] || []`. -/
def getCollection (st : Store) (name : String) : List Obj :=
  (assocGet st.collections name).getD []

/-- Model of `StorageManager.setCollection` (storage.js:85-92): replaces the named
collection in the document and persists it. -/
def setCollection (st : Store) (name : String) (items : List Obj) : Store :=
  ⟨assocSet st.collections name items⟩

/-- Model of `StorageManager.addToCollection` (storage.js:98-109): spreads the item,
assigns fresh `id`/`createdAt`/`updatedAt`, appends, persists, and returns
the stored entity.  `newId` is the value of `generateId()` and `ts` that of
`new Date().toISOString()`, passed in explicitly. -/
def addToCollection (st : Store) (name : String) (item : Obj)
    (newId ts : String) : Store × Obj :=
  let collection := getCollection st name
  let newItem := objMerge item
    [("id", .str newId), ("createdAt", .str ts), ("updatedAt", .str ts)]
  (setCollection st name (collection ++ [newItem]), newItem)

/-- Model of `StorageManager.updateInCollection` (storage.js:114-128): find by id,
merge `{...old, ...updates, updatedAt: ts}` in place and persist; return the
merged entity, or `null` (and leave the document untouched) if no entity has
the id. -/
def updateInCollection (st : Store) (name itemId : String) (updates : Obj)
    (ts : String) : Store × Option Obj :=
  let collection := getCollection st name
  match collection.findIdx? (fun item => objGet item "id" == some (.str itemId)) with
  | none => (st, none)
  | some i =>
    let old := (collection[i]?).getD []
    let merged := objMerge (objMerge old updates) [("updatedAt", .str ts)]
    (setCollection st name (collection.set i merged), some merged)

/-- Model of `StorageManager.findInCollection` (storage.js:147-150):
`collection.find(predicate)`. -/
def findInCollection (st : Store) (name : String) (p : Obj → Bool) : Option Obj :=
  (getCollection st name).find? p

/-! ## API service (`js/services/api.service.js`, `ApiService`)

The environment's behaviour (one `fetch` outcome per attempt) is passed in
as an oracle `outcomes : ℕ → FetchOutcome` indexed by the 1-based attempt
number.  The default interceptors never resolve an error (`ApiError` has no
`.response` field, so the 401-refresh branch is dead and the handler always
rejects), so they are omitted. -/

/-- Constant `this.retryAttempts = 3` (api.service.js:9). -/
def retryAttempts : ℕ := 3

/-- Constant `this.timeoutDuration = 10000` (api.service.js:10), in milliseconds;
`makeRequest` arms `setTimeout(() => controller.abort(), timeoutDuration)`. -/
def timeoutDuration : ℕ := 10000

/-- The typed failure `ApiError(status, statusText)` (api.service.js:470-478). -/
structure ApiError where
  status : ℕ
  statusText : String
deriving DecidableEq

/-- An error escaping one attempt: an `ApiError`, or any other thrown error
(network failure etc.), distinguished because `shouldNotRetry` tests
`error instanceof ApiError`. -/
inductive ReqError where
  | api (e : ApiError)
  | other (name msg : String)
deriving DecidableEq

/-- What the environment does to a single `fetch` attempt. -/
inductive FetchOutcome where
  | ok (status : ℕ)
  | httpError (status : ℕ) (statusText : String)
  | abortError
  | networkError (name msg : String)
deriving DecidableEq

/-- Model of `ApiService.makeRequest` (api.service.js:179-214): a non-`ok` response
becomes `ApiError(status, statusText)`; an `AbortError` (the 10s timer
fired) becomes `ApiError(408, 'Request Timeout')`; other exceptions are
rethrown as-is. -/
def makeRequest (o : FetchOutcome) : Except ReqError ℕ :=
  match o with
  | .ok s => .ok s
  | .httpError s t => .error (.api ⟨s, t⟩)
  | .abortError => .error (.api ⟨408, "Request Timeout"⟩)
  | .networkError n m => .error (.other n m)

/-- Model of `ApiService.shouldNotRetry` (api.service.js:394-401): client errors
(400-499) except 408 and 429 are not retried; non-`ApiError` failures are
always retried. -/
def shouldNotRetry (e : ReqError) : Bool :=
  match e with
  | .api err =>
    decide (400 ≤ err.status) && decide (err.status < 500) &&
      decide (err.status ≠ 408) && decide (err.status ≠ 429)
  | .other _ _ => false

/-- Model of `ApiService.getRetryDelay` (api.service.js:406-409):
`Math.pow(2, attempt - 1) * 1000`. -/
def getRetryDelay (attempt : ℕ) : ℕ :=
  2 ^ (attempt - 1) * 1000

deriving instance DecidableEq for Except

/-- The observable outcome of `ApiService.request`: the value returned or
error thrown, how many attempts ran, and the `delay(...)` sleeps (in ms)
performed between attempts. -/
structure RequestTrace where
  result : Except ReqError ℕ
  attemptsMade : ℕ
  delays : List ℕ
deriving DecidableEq

/-- The retry loop body of `ApiService.request` (api.service.js:128-174),
at attempt number `attempt` with `remaining` loop iterations left
(`attempt + remaining = retryAttempts + 1` at the top-level call): a success
returns; an error breaks the loop if `shouldNotRetry`, and the final
iteration's error is thrown as `lastError`; otherwise the loop sleeps
`getRetryDelay(attempt)` and retries. -/
def requestAux (outcomes : ℕ → FetchOutcome) : ℕ → ℕ → RequestTrace
  | _, 0 => ⟨.error (.other "Error" "loop not entered"), 0, []⟩
  | attempt, remaining + 1 =>
    match makeRequest (outcomes attempt) with
    | .ok r => ⟨.ok r, 1, []⟩
    | .error e =>
      if shouldNotRetry e then ⟨.error e, 1, []⟩
      else if remaining = 0 then ⟨.error e, 1, []⟩
      else
        let rest := requestAux outcomes (attempt + 1) remaining
        ⟨rest.result, rest.attemptsMade + 1, getRetryDelay attempt :: rest.delays⟩

/-- Model of `ApiService.request` (api.service.js:128-174): up to `retryAttempts`
attempts, starting at attempt 1. -/
def request (outcomes : ℕ → FetchOutcome) : RequestTrace :=
  requestAux outcomes 1 retryAttempts

/-! ## Concrete entities used in counterexamples and witnesses -/

/-- A provider at distance exactly 0 km (e.g. sharing the reference
location); its `distance` is falsy in JS. -/
def pZero : Provider := { availability := "busy", distance := some 0 }

/-- A provider 5 km away. -/
def pFar : Provider := { availability := "busy", distance := some 5 }

/-! ## Comparator characterizations -/

/-- The `default:` branch of the sort dispatch is the relevance comparator. -/
lemma sortLE_relevance (a b : Provider) :
    sortLE "relevance" a b ↔ calculateRelevanceScore b ≤ calculateRelevanceScore a := by
  simp [sortLE, sortCompare, cmpRelevance, sub_nonpos]

/-- What the distance comparator's `cmp ≤ 0` amounts to. -/
lemma sortLE_distance (a b : Provider) : sortLE "distance" a b ↔ codeDistLE a b := by
  simp only [sortLE, sortCompare, cmpDistance, codeDistLE]
  norm_num
  cases ha : distTruthy a <;> cases hb : distTruthy b <;>
    simp [ha, hb, sub_nonpos]

instance : IsTotal Provider (sortLE "relevance") :=
  ⟨fun a b => by rw [sortLE_relevance, sortLE_relevance]; exact le_total _ _⟩

instance : IsTrans Provider (sortLE "relevance") :=
  ⟨fun a b c hab hbc => by
    rw [sortLE_relevance] at *
    exact le_trans hbc hab⟩

instance : IsTotal Provider (sortLE "distance") :=
  ⟨fun a b => by
    rw [sortLE_distance, sortLE_distance]
    unfold codeDistLE
    cases ha : distTruthy a <;> cases hb : distTruthy b <;>
      simp [ha, hb, le_total]⟩

instance : IsTrans Provider (sortLE "distance") :=
  ⟨fun a b c hab hbc => by
    rw [sortLE_distance] at *
    obtain ⟨h₁, h₂⟩ := hab
    obtain ⟨h₃, h₄⟩ := hbc
    exact ⟨fun hc => h₁ (h₃ hc), fun ha hc =>
      le_trans (h₂ ha (h₃ hc)) (h₄ (h₃ hc) hc)⟩⟩

/-! ## C1: relevance score formula and relevance sort -/

/-- Claim C1, counterexample: The claim's formula awards the distance bonus
whenever the provider *has* a distance value; the code skips it when the
value is `0` (JS falsiness).  At a provider with `distance = 0` the claimed
score is 20 but the code computes 0. -/
theorem relevance_score_claim_cex :
    calculateRelevanceScore pZero ≠ claimRelevanceScore pZero := by
  simp [calculateRelevanceScore, claimRelevanceScore, distTruthy, distVal, pZero]

/-- Claim C1, amended: For every provider, the code's relevance score equals
`rating*0.4*20 + (25 if available) + max(0, 50-distanceKm)*0.4` *when the
provider has a nonzero distance value* (`0` otherwise, including when the
distance is exactly `0`) `+ min(experienceYears,20)*0.5 +
min(reviewCount/10,20)*0.25`; and sorting by relevance yields a permutation
of the input ordered by non-increasing score. -/
theorem relevance_score_formula_and_sort :
    (∀ p, calculateRelevanceScore p = amendedRelevanceScore p) ∧
    (∀ l, List.Perm (sortProviders "relevance" l) l ∧
      (sortProviders "relevance" l).Pairwise
        (fun a b => calculateRelevanceScore b ≤ calculateRelevanceScore a)) := by
  constructor
  · intro p
    unfold calculateRelevanceScore amendedRelevanceScore distTruthy distVal
    cases hd : p.distance with
    | none => simp
    | some d =>
      rcases eq_or_ne d 0 with h | h <;> simp [h]
  · intro l
    refine ⟨List.perm_insertionSort _ _, ?_⟩
    have h := List.sorted_insertionSort (sortLE "relevance") l
    exact h.imp (fun hab => (sortLE_relevance _ _).mp hab)

/-! ## C2: determinism and monotonicity of the relevance score -/

/-- Claim C2: The relevance score is a deterministic function of the
provider's fields, and it never decreases when the rating increases, when
availability flips from a non-`'available'` value to `'available'`, or when
the review count increases, all other fields held fixed. -/
theorem relevance_score_monotone :
    (∀ p q : Provider, p = q →
      calculateRelevanceScore p = calculateRelevanceScore q) ∧
    (∀ (p : Provider) (r₁ r₂ : ℚ), r₁ ≤ r₂ →
      calculateRelevanceScore { p with rating := r₁ } ≤
        calculateRelevanceScore { p with rating := r₂ }) ∧
    (∀ (p : Provider) (s : String), s ≠ "available" →
      calculateRelevanceScore { p with availability := s } ≤
        calculateRelevanceScore { p with availability := "available" }) ∧
    (∀ (p : Provider) (c₁ c₂ : ℚ), c₁ ≤ c₂ →
      calculateRelevanceScore { p with reviewCount := c₁ } ≤
        calculateRelevanceScore { p with reviewCount := c₂ }) := by
  refine ⟨fun p q h => by rw [h], ?_, ?_, ?_⟩
  · intro p r₁ r₂ h
    simp only [calculateRelevanceScore, distTruthy, distVal]
    have : r₁ * (4/10) * 20 ≤ r₂ * (4/10) * 20 := by nlinarith
    linarith
  · intro p s hs
    simp only [calculateRelevanceScore, distTruthy, distVal, if_neg hs, if_pos rfl,
      if_true]
    linarith
  · intro p c₁ c₂ h
    simp only [calculateRelevanceScore, distTruthy, distVal]
    have h1 : min (c₁ / 10) 20 ≤ min (c₂ / 10) 20 :=
      min_le_min (by linarith) le_rfl
    have h2 : min (c₁ / 10) 20 * (25/100) ≤ min (c₂ / 10) 20 * (25/100) :=
      mul_le_mul_of_nonneg_right h1 (by norm_num)
    linarith

/-- Claim C2, witness: -/
theorem relevance_score_monotone_witness :
    calculateRelevanceScore { pZero with rating := 3 } ≤
      calculateRelevanceScore { pZero with rating := 4 } :=
  relevance_score_monotone.2.1 pZero 3 4 (by norm_num)

/-! ## C3: the distance sort order -/

/-- Claim C3, counterexample: With providers at distances 0 km and 5 km, the
code sorts the 0 km provider *last* (its `distance` is falsy), so the output
is not in non-decreasing order of the present distance values as the claim
states. -/
theorem distance_sort_claim_cex :
    sortProviders "distance" [pZero, pFar] = [pFar, pZero] ∧
      ¬ (sortProviders "distance" [pZero, pFar]).Pairwise claimDistLE := by
  constructor
  · decide
  · decide

/-- Claim C3, amended: Sorting by `'distance'` yields a permutation of the
input in which every provider with a *truthy* (present and nonzero)
distance precedes every provider with a falsy one (absent or zero), and
providers with truthy distances appear in non-decreasing order of their
distance values. -/
theorem distance_sort_order (l : List Provider) :
    List.Perm (sortProviders "distance" l) l ∧
      (sortProviders "distance" l).Pairwise codeDistLE := by
  refine ⟨List.perm_insertionSort _ _, ?_⟩
  have h := List.sorted_insertionSort (sortLE "distance") l
  exact h.imp (fun hab => (sortLE_distance _ _).mp hab)

/-! ## C4: the distance filter -/

/-- Claim C4: Against a nonnegative distance bound: a provider with a distance
value passes the distance filter iff that value is at most the bound (a zero
distance is falsy and passes unconditionally, which agrees with the claim
because the bound is nonnegative), and a provider without a distance value
always passes. -/
theorem distance_filter_spec (p : Provider) (maxD : ℚ) (h0 : 0 ≤ maxD) :
    (∀ d, p.distance = some d → (distanceFilterPass p maxD = true ↔ d ≤ maxD)) ∧
    (p.distance = none → distanceFilterPass p maxD = true) := by
  constructor
  · intro d hd
    simp only [distanceFilterPass, distTruthy, distVal, hd, Option.getD_some]
    rcases eq_or_ne d 0 with h | h
    · subst h
      simp [h0]
    · simp [h, not_lt]
  · intro hd
    simp [distanceFilterPass, distTruthy, hd]

/-- Claim C4, witness: -/
theorem distance_filter_spec_witness :
    distanceFilterPass pFar 50 = true :=
  ((distance_filter_spec pFar 50 (by norm_num)).1 5 rfl).mpr (by norm_num)

/-! ## C5: pagination -/

/-- Concatenating the first `n` pages of size `P` gives the first `n * P`
elements. -/
lemma join_pages (P : ℕ) (l : List Provider) :
    ∀ n, ((List.range n).map (fun k => (l.drop (k * P)).take P)).flatten
      = l.take (n * P) := by
  intro n
  induction n with
  | zero => simp
  | succ n ih =>
    rw [List.range_succ, List.map_append, List.flatten_append]
    simp only [List.map_cons, List.map_nil, List.flatten_cons, List.flatten_nil,
      List.append_nil]
    rw [ih, Nat.succ_mul, List.take_add]

/-- The code value `Math.ceil(count / per)` agrees with exact natural ceiling division. -/
lemma totalPages_eq_ceil (c P : ℕ) (hP : 0 < P) :
    totalPages c P = ⌈(c : ℚ) / P⌉₊ := by
  have hPQ : (0:ℚ) < P := by exact_mod_cast hP
  have h1 : totalPages c P = c ⌈/⌉ P := (Nat.ceilDiv_eq_add_pred_div c P).symm
  rw [h1]
  apply le_antisymm
  · rw [ceilDiv_le_iff_le_mul hP]
    have h2 : (c:ℚ) / P ≤ (⌈(c:ℚ)/P⌉₊ : ℚ) := Nat.le_ceil _
    have h3 : (c:ℚ) ≤ (⌈(c:ℚ)/P⌉₊ : ℚ) * P := by rwa [div_le_iff₀ hPQ] at h2
    have h4 : c ≤ ⌈(c:ℚ)/P⌉₊ * P := by exact_mod_cast h3
    simpa [Nat.mul_comm] using h4
  · rw [Nat.ceil_le]
    have h5 : c ≤ P * (c ⌈/⌉ P) := le_smul_ceilDiv hP
    have h6 : (c:ℚ) ≤ (P : ℚ) * ((c ⌈/⌉ P : ℕ) : ℚ) := by exact_mod_cast h5
    rw [div_le_iff₀ hPQ]
    linarith

/-- A collection never outgrows its page count: `length ≤ totalPages * P`. -/
lemma length_le_totalPages_mul (c P : ℕ) (hP : 0 < P) :
    c ≤ totalPages c P * P := by
  have h1 : totalPages c P = c ⌈/⌉ P := (Nat.ceilDiv_eq_add_pred_div c P).symm
  rw [h1, Nat.mul_comm]
  exact le_smul_ceilDiv hP

/-- Claim C5: With page size `P > 0`: page `N` (1-based) is exactly the slice
`[(N-1)*P, N*P)` of the filtered sequence (elementwise: entry `i` of the
page is entry `(N-1)*P + i` of the sequence, for `i < P`, and the page has
no further entries); the page count equals `ceil(length / P)`; and
concatenating pages `1..totalPages` reproduces the sequence exactly once,
in order. -/
theorem pagination_spec (l : List Provider) (P : ℕ) (hP : 0 < P) :
    (∀ N i, 1 ≤ N →
      (renderPage l P N)[i]? = if i < P then l[(N - 1) * P + i]? else none) ∧
    totalPages l.length P = ⌈(l.length : ℚ) / P⌉₊ ∧
    ((List.range (totalPages l.length P)).map (fun k => renderPage l P (k + 1))).flatten
      = l := by
  refine ⟨?_, totalPages_eq_ceil _ _ hP, ?_⟩
  · intro N i _
    unfold renderPage jsSlice
    have he : (N - 1) * P + P - (N - 1) * P = P := by omega
    rw [he]
    by_cases hi : i < P
    · rw [if_pos hi, List.getElem?_take_of_lt hi, List.getElem?_drop]
    · rw [if_neg hi]
      apply List.getElem?_eq_none
      have := (l.drop ((N - 1) * P)).length_take P
      omega
  · have hpage : ∀ k : ℕ, renderPage l P (k + 1) = (l.drop (k * P)).take P := by
      intro k
      unfold renderPage jsSlice
      have h0 : k + 1 - 1 = k := by omega
      rw [h0]
      have h2 : k * P + P - k * P = P := by omega
      rw [h2]
    calc ((List.range (totalPages l.length P)).map (fun k => renderPage l P (k + 1))).flatten
        = ((List.range (totalPages l.length P)).map (fun k => (l.drop (k * P)).take P)).flatten := by
          simp only [hpage]
      _ = l.take (totalPages l.length P * P) := join_pages P l _
      _ = l := List.take_of_length_le (length_le_totalPages_mul _ _ hP)

/-- Claim C5, witness: Three providers at page size 12 fit on a single page. -/
theorem pagination_spec_witness :
    ((List.range (totalPages ([pZero, pFar, pZero] : List Provider).length 12)).map
      (fun k => renderPage [pZero, pFar, pZero] 12 (k + 1))).flatten
      = [pZero, pFar, pZero] :=
  (pagination_spec [pZero, pFar, pZero] 12 (by norm_num)).2.2

/-! ## C6: stability of every selectable sort order -/

/-- Claim C6: Every selectable sort order is stable: whenever two providers
compare equal under the selected comparator (`cmp(a, b) = 0`) and `a`
precedes `b` in the input, `a` still precedes `b` in the sorted output
(`[a, b]` stays a sublist).  This holds for every `sortBy` value, including
the `default:` relevance branch. -/
theorem sort_stable (sortBy : String) (a b : Provider) (l : List Provider)
    (heq : sortCompare sortBy a b = 0) (hsub : List.Sublist [a, b] l) :
    List.Sublist [a, b] (sortProviders sortBy l) := by
  apply List.pair_sublist_insertionSort
  · show sortLE sortBy a b
    rw [sortLE, heq]
  · exact hsub

/-- Claim C6, witness: Two providers with equal ratings keep their order under
the rating sort. -/
theorem sort_stable_witness :
    List.Sublist [pZero, pFar] (sortProviders "rating" [pZero, pFar]) :=
  sort_stable "rating" pZero pFar [pZero, pFar]
    (by simp [sortCompare, cmpRating, pZero, pFar])
    (List.Sublist.refl _)

/-! ## Association-list lemmas for the storage layer -/

lemma assocGet_cons {β : Type} (k₀ k : String) (v₀ : β) (m : List (String × β)) :
    assocGet ((k₀, v₀) :: m) k = if k₀ = k then some v₀ else assocGet m k := by
  by_cases h : k₀ = k <;> simp [assocGet, h]

lemma assocGet_assocSet_self {β : Type} (m : List (String × β)) (k : String) (v : β) :
    assocGet (assocSet m k v) k = some v := by
  induction m with
  | nil => simp [assocSet, assocGet]
  | cons kv rest ih =>
    obtain ⟨k', v'⟩ := kv
    by_cases h : k' = k
    · rw [assocSet, if_pos h, assocGet_cons, if_pos rfl]
    · rw [assocSet, if_neg h, assocGet_cons, if_neg h, ih]

lemma assocGet_assocSet_ne {β : Type} (m : List (String × β)) (k k' : String)
    (v : β) (h : k' ≠ k) :
    assocGet (assocSet m k v) k' = assocGet m k' := by
  induction m with
  | nil =>
    rw [assocSet, assocGet_cons, if_neg (Ne.symm h)]
  | cons kv rest ih =>
    obtain ⟨k₀, v₀⟩ := kv
    by_cases h₀ : k₀ = k
    · subst h₀
      rw [assocSet, if_pos rfl, assocGet_cons, if_neg (Ne.symm h),
        assocGet_cons, if_neg (Ne.symm h)]
    · rw [assocSet, if_neg h₀, assocGet_cons, assocGet_cons, ih]

lemma assocGet_eq_none_of_not_mem {β : Type} (m : List (String × β)) (k : String)
    (h : k ∉ m.map Prod.fst) :
    assocGet m k = none := by
  induction m with
  | nil => simp [assocGet]
  | cons kv rest ih =>
    obtain ⟨k₀, v₀⟩ := kv
    simp only [List.map_cons, List.mem_cons] at h
    push_neg at h
    rw [assocGet_cons, if_neg (Ne.symm h.1), ih h.2]

/-- Reading a merged object: the right operand wins on its (unique) keys,
otherwise the left operand is read — the semantics of `{...a, ...b}`. -/
lemma objGet_objMerge (b : Obj) (hb : (b.map Prod.fst).Nodup) :
    ∀ (a : Obj) (k : String),
      objGet (objMerge a b) k = (objGet b k).or (objGet a k) := by
  induction b with
  | nil => intro a k; simp [objMerge, objGet, assocGet]
  | cons kv rest ih =>
    obtain ⟨k₀, v₀⟩ := kv
    simp only [List.map_cons, List.nodup_cons] at hb
    intro a k
    have hm : objMerge a ((k₀, v₀) :: rest) = objMerge (assocSet a k₀ v₀) rest := rfl
    rw [hm, ih hb.2]
    show (assocGet rest k).or (assocGet (assocSet a k₀ v₀) k)
        = (assocGet ((k₀, v₀) :: rest) k).or (assocGet a k)
    rw [assocGet_cons]
    by_cases h : k₀ = k
    · subst h
      rw [assocGet_eq_none_of_not_mem rest k₀ hb.1, assocGet_assocSet_self,
        if_pos rfl]
      simp
    · rw [if_neg h, assocGet_assocSet_ne a k₀ k v₀ (Ne.symm h)]

lemma getCollection_setCollection_self (st : Store) (name : String)
    (items : List Obj) :
    getCollection (setCollection st name items) name = items := by
  simp [getCollection, setCollection, assocGet_assocSet_self]

/-- Evaluating `findIndex` over a split list whose first match is the middle element. -/
lemma findIdx?_middle (p : Obj → Bool) (pre : List Obj) (x : Obj) (post : List Obj)
    (h1 : ∀ e ∈ pre, p e = false) (hx : p x = true) :
    ∀ i, (pre ++ x :: post).findIdx? p i = some (i + pre.length) := by
  induction pre with
  | nil => intro i; simp [hx]
  | cons a t ih =>
    intro i
    have ha : p a = false := h1 a (by simp)
    have ht : ∀ e ∈ t, p e = false := fun e he => h1 e (by simp [he])
    simp only [List.cons_append, List.findIdx?_cons, ha, if_neg, Bool.false_eq_true,
      if_false, ih ht (i + 1)]
    congr 1
    simp
    omega

/-! ## C7: update on a nonexistent id is a no-op -/

/-- Claim C7: If no entity in the collection has the given id,
`updateInCollection` returns `null` and both the document and the
collection's contents are unchanged. -/
theorem update_missing_id_noop (st : Store) (name itemId : String)
    (patch : Obj) (ts : String)
    (h : ∀ e ∈ getCollection st name, objGet e "id" ≠ some (.str itemId)) :
    updateInCollection st name itemId patch ts = (st, none) ∧
    getCollection (updateInCollection st name itemId patch ts).1 name
      = getCollection st name := by
  have hidx : (getCollection st name).findIdx?
      (fun item => objGet item "id" == some (.str itemId)) = none := by
    rw [List.findIdx?_eq_none_iff]
    intro x hx
    simpa using h x hx
  have hmain : updateInCollection st name itemId patch ts = (st, none) := by
    simp only [updateInCollection]
    rw [hidx]
  exact ⟨hmain, by rw [hmain]⟩

/-- Claim C7, witness: A one-user collection, updated under an absent id. -/
theorem update_missing_id_noop_witness :
    updateInCollection ⟨[("users", [[("id", .str "u1")]])]⟩ "users" "zz"
        [("name", .str "x")] "2024-01-01" = (⟨[("users", [[("id", .str "u1")]])]⟩, none) :=
  (update_missing_id_noop ⟨[("users", [[("id", .str "u1")]])]⟩ "users" "zz"
    [("name", .str "x")] "2024-01-01" (by decide)).1

/-! ## C8: add / find round-trip -/

/-- How the entity stored by `addToCollection` reads: the three system
fields win over the input item's fields, everything else is the item's. -/
lemma addToCollection_snd_get (item : Obj) (newId ts : String) (k : String) :
    objGet (objMerge item
        [("id", .str newId), ("createdAt", .str ts), ("updatedAt", .str ts)]) k
      = if k = "id" then some (.str newId)
        else if k = "createdAt" then some (.str ts)
        else if k = "updatedAt" then some (.str ts)
        else objGet item k := by
  rw [objGet_objMerge _ (by simp) item k]
  show ((assocGet _ k).or (assocGet item k)) = _
  rw [assocGet_cons, assocGet_cons, assocGet_cons]
  by_cases h1 : k = "id"
  · subst h1
    simp
  · rw [if_neg h1, if_neg (fun hh => h1 hh.symm)]
    by_cases h2 : k = "createdAt"
    · subst h2
      simp
    · rw [if_neg h2, if_neg (fun hh => h2 hh.symm)]
      by_cases h3 : k = "updatedAt"
      · subst h3
        simp
      · rw [if_neg h3, if_neg (fun hh => h3 hh.symm)]
        show (assocGet ([] : Obj) k).or (assocGet item k) = objGet item k
        simp [assocGet]
        rfl

/-- Claim C8: `addToCollection` followed by `findInCollection` with a
predicate matching the freshly assigned id retrieves exactly the stored
entity, and that entity reads as the input item's fields overridden by the
fresh `id`, `createdAt` and `updatedAt` system fields. -/
theorem add_find_roundtrip (st : Store) (name : String) (item : Obj)
    (newId ts : String)
    (fresh : ∀ e ∈ getCollection st name, objGet e "id" ≠ some (.str newId)) :
    findInCollection (addToCollection st name item newId ts).1 name
        (fun e => objGet e "id" == some (.str newId))
      = some (addToCollection st name item newId ts).2 ∧
    (∀ k, objGet (addToCollection st name item newId ts).2 k
      = if k = "id" then some (.str newId)
        else if k = "createdAt" then some (.str ts)
        else if k = "updatedAt" then some (.str ts)
        else objGet item k) := by
  have hself : ∀ k, objGet (addToCollection st name item newId ts).2 k
      = if k = "id" then some (.str newId)
        else if k = "createdAt" then some (.str ts)
        else if k = "updatedAt" then some (.str ts)
        else objGet item k := by
    intro k
    simp only [addToCollection]
    exact addToCollection_snd_get item newId ts k
  refine ⟨?_, hself⟩
  have hid : objGet (addToCollection st name item newId ts).2 "id"
      = some (.str newId) := by
    rw [hself "id", if_pos rfl]
  simp only [findInCollection, addToCollection, getCollection_setCollection_self]
  rw [List.find?_append]
  have h1 : (getCollection st name).find?
      (fun e => objGet e "id" == some (.str newId)) = none := by
    rw [List.find?_eq_none]
    intro x hx
    simpa using fresh x hx
  rw [h1]
  have h2 : (objGet (objMerge item
      [("id", .str newId), ("createdAt", .str ts), ("updatedAt", .str ts)]) "id"
        == some (Value.str newId)) = true := by
    have := addToCollection_snd_get item newId ts "id"
    rw [if_pos rfl] at this
    simp [this]
  simp [List.find?, h2]

/-- Claim C8, witness: Adding a named user and finding it by the returned id. -/
theorem add_find_roundtrip_witness :
    findInCollection
        (addToCollection ⟨[("users", [[("id", .str "u1")]])]⟩ "users"
          [("name", .str "Asha")] "u2" "2024-01-01").1 "users"
        (fun e => objGet e "id" == some (.str "u2"))
      = some (addToCollection ⟨[("users", [[("id", .str "u1")]])]⟩ "users"
          [("name", .str "Asha")] "u2" "2024-01-01").2 :=
  (add_find_roundtrip ⟨[("users", [[("id", .str "u1")]])]⟩ "users"
    [("name", .str "Asha")] "u2" "2024-01-01" (by decide)).1

/-! ## C10: patch-wins update semantics, including the id -/

lemma set_middle (pre : List Obj) (x y : Obj) (post : List Obj) :
    (pre ++ x :: post).set pre.length y = pre ++ y :: post := by
  rw [List.set_append_right _ _ (le_refl _)]
  simp

/-- Claim C10: `updateInCollection` merges with patch-wins semantics over
*all* stored fields, the system field `id` included: when the patch carries
an `id`, the stored entity's id becomes the patch's value, and (when the
updated entity was the only one with the original id) the entity can no
longer be found under its original id; any `updatedAt` supplied by the
patch is overwritten by the fresh timestamp. -/
theorem update_patch_wins (st : Store) (name itemId newIdVal ts : String)
    (patch : Obj) (pre post : List Obj) (target : Obj)
    (hcol : getCollection st name = pre ++ target :: post)
    (hpre : ∀ e ∈ pre, objGet e "id" ≠ some (.str itemId))
    (htgt : objGet target "id" = some (.str itemId))
    (hpost : ∀ e ∈ post, objGet e "id" ≠ some (.str itemId))
    (hkeys : (patch.map Prod.fst).Nodup)
    (hpatchId : objGet patch "id" = some (.str newIdVal))
    (hne : newIdVal ≠ itemId) :
    ∃ merged,
      updateInCollection st name itemId patch ts
        = (setCollection st name (pre ++ merged :: post), some merged) ∧
      objGet merged "id" = some (.str newIdVal) ∧
      objGet merged "updatedAt" = some (.str ts) ∧
      findInCollection (updateInCollection st name itemId patch ts).1 name
        (fun e => objGet e "id" == some (.str itemId)) = none := by
  have hidx : (getCollection st name).findIdx?
      (fun item => objGet item "id" == some (.str itemId)) = some pre.length := by
    rw [hcol]
    have h0 := findIdx?_middle (fun item => objGet item "id" == some (.str itemId))
      pre target post
      (fun e he => by
        simp only [beq_eq_false_iff_ne, ne_eq]
        exact hpre e he)
      (by simp [htgt]) 0
    simpa using h0
  have hget : (getCollection st name)[pre.length]? = some target := by
    rw [hcol, List.getElem?_append_right (le_refl _)]
    simp
  have hupd : updateInCollection st name itemId patch ts
      = (setCollection st name
          (pre ++ objMerge (objMerge target patch) [("updatedAt", Value.str ts)] :: post),
        some (objMerge (objMerge target patch) [("updatedAt", Value.str ts)])) := by
    simp only [updateInCollection]
    rw [hidx]
    simp only [hget, Option.getD_some]
    rw [hcol, set_middle]
  have hmergedId : objGet (objMerge (objMerge target patch)
      [("updatedAt", Value.str ts)]) "id" = some (.str newIdVal) := by
    rw [objGet_objMerge _ (by simp) _ _, objGet_objMerge patch hkeys target "id",
      hpatchId]
    show (assocGet [("updatedAt", Value.str ts)] "id").or _ = _
    rw [assocGet_cons, if_neg (by decide)]
    rfl
  have hmergedUp : objGet (objMerge (objMerge target patch)
      [("updatedAt", Value.str ts)]) "updatedAt" = some (.str ts) := by
    rw [objGet_objMerge _ (by simp) _ _]
    show (assocGet [("updatedAt", Value.str ts)] "updatedAt").or _ = _
    rw [assocGet_cons, if_pos rfl]
    rfl
  refine ⟨objMerge (objMerge target patch) [("updatedAt", Value.str ts)],
    hupd, hmergedId, hmergedUp, ?_⟩
  rw [hupd]
  simp only [findInCollection, getCollection_setCollection_self]
  rw [List.find?_eq_none]
  intro x hx
  simp only [beq_iff_eq]
  rcases List.mem_append.mp hx with hx1 | hx2
  · exact hpre x hx1
  · rcases List.mem_cons.mp hx2 with hx3 | hx4
    · subst hx3
      rw [hmergedId]
      intro hcontra
      exact hne (by injection (Option.some.inj hcontra))
    · exact hpost x hx4

/-- Claim C10, witness: Patching the only user `u1` with an id-and-updatedAt
patch: afterwards no entity is found under `u1`. -/
theorem update_patch_wins_witness :
    findInCollection
        (updateInCollection ⟨[("users", [[("id", .str "u1")]])]⟩ "users" "u1"
          [("id", .str "u9"), ("updatedAt", .str "bogus")] "2024-01-02").1 "users"
        (fun e => objGet e "id" == some (.str "u1")) = none := by
  obtain ⟨m, h1, h2, h3, h4⟩ :=
    update_patch_wins ⟨[("users", [[("id", .str "u1")]])]⟩ "users" "u1" "u9"
      "2024-01-02" [("id", .str "u9"), ("updatedAt", .str "bogus")] [] []
      [("id", .str "u1")] (by decide) (by decide) (by decide) (by decide)
      (by decide) (by decide) (by decide)
  exact h4

/-! ## C9: timeout and retry policy -/

/-- The loop makes at least one attempt whenever iterations remain. -/
lemma requestAux_attempts_pos (outcomes : ℕ → FetchOutcome) (attempt n : ℕ) :
    1 ≤ (requestAux outcomes attempt (n + 1)).attemptsMade := by
  simp only [requestAux]
  cases makeRequest (outcomes attempt) with
  | ok r => simp
  | error e =>
    by_cases hs : shouldNotRetry e <;> by_cases hn : n = 0 <;> simp [hs, hn]

/-- A failed attempt whose error satisfies `shouldNotRetry` ends the loop at
once: one attempt, no delays, the error is thrown. -/
lemma requestAux_stop (outcomes : ℕ → FetchOutcome) (attempt n : ℕ) (e : ReqError)
    (hout : makeRequest (outcomes attempt) = .error e)
    (hs : shouldNotRetry e = true) :
    requestAux outcomes attempt (n + 1) = ⟨.error e, 1, []⟩ := by
  simp [requestAux, hout, hs]

/-- The loop runs at most `remaining` attempts, and the sleeps it performs
are exactly `getRetryDelay` of the attempt numbers `attempt, attempt+1, …`
for all but the last attempt made. -/
lemma requestAux_spec (outcomes : ℕ → FetchOutcome) :
    ∀ remaining attempt : ℕ,
      (requestAux outcomes attempt remaining).attemptsMade ≤ remaining ∧
      (requestAux outcomes attempt remaining).delays
        = (List.range' attempt
            ((requestAux outcomes attempt remaining).attemptsMade - 1)).map
              getRetryDelay := by
  intro remaining
  induction remaining with
  | zero => intro attempt; simp [requestAux]
  | succ n ih =>
    intro attempt
    simp only [requestAux]
    cases hmk : makeRequest (outcomes attempt) with
    | ok r => simp
    | error e =>
      by_cases hs : shouldNotRetry e
      · simp [hs]
      · by_cases hn : n = 0
        · simp [hs, hn]
        · obtain ⟨m, hm⟩ := Nat.exists_eq_succ_of_ne_zero hn
          obtain ⟨ha, hd⟩ := ih (attempt + 1)
          have hpos : 1 ≤ (requestAux outcomes (attempt + 1) n).attemptsMade := by
            rw [hm]
            exact requestAux_attempts_pos outcomes (attempt + 1) m
          simp only [hs, hn, if_false, Bool.false_eq_true]
          constructor
          · omega
          · have hk : (requestAux outcomes (attempt + 1) n).attemptsMade + 1 - 1
                = ((requestAux outcomes (attempt + 1) n).attemptsMade - 1) + 1 := by
              omega
            rw [hk, List.range'_succ, List.map_cons, ← hd]

/-- An attempt `i` whose failure the loop retries: it errors and
`shouldNotRetry` does not hold. -/
def retryableAt (outcomes : ℕ → FetchOutcome) (i : ℕ) : Prop :=
  ∃ e, makeRequest (outcomes i) = .error e ∧ shouldNotRetry e = false

/-- Full behaviour of the loop when `j` leading attempts fail retryably and
attempt `attempt + j` succeeds: every leading failure is retried after the
scheduled sleep, and the success value is returned on attempt `j + 1`. -/
lemma requestAux_succeeds (outcomes : ℕ → FetchOutcome) :
    ∀ (j attempt rem r : ℕ), j < rem →
      (∀ i, i < j → retryableAt outcomes (attempt + i)) →
      makeRequest (outcomes (attempt + j)) = .ok r →
      requestAux outcomes attempt rem
        = ⟨.ok r, j + 1, (List.range' attempt j).map getRetryDelay⟩ := by
  intro j
  induction j with
  | zero =>
    intro attempt rem r hlt _ hok
    obtain ⟨rr, rfl⟩ := Nat.exists_eq_succ_of_ne_zero (by omega : rem ≠ 0)
    rw [Nat.add_zero] at hok
    simp [requestAux, hok, List.range']
  | succ jj ih =>
    intro attempt rem r hlt hfail hok
    obtain ⟨rr, rfl⟩ := Nat.exists_eq_succ_of_ne_zero (by omega : rem ≠ 0)
    obtain ⟨e0, he0, hs0⟩ := hfail 0 (by omega)
    rw [Nat.add_zero] at he0
    have hrr : rr ≠ 0 := by omega
    have hrest := ih (attempt + 1) rr r (by omega)
      (fun i hi => by
        have h := hfail (i + 1) (by omega)
        rwa [show attempt + (i + 1) = attempt + 1 + i by omega] at h)
      (by rwa [show attempt + 1 + jj = attempt + (jj + 1) by omega])
    simp only [requestAux, he0, hs0, hrr, Bool.false_eq_true, if_false, hrest]
    rw [List.range'_succ, List.map_cons]

/-- Full behaviour of the loop when `j` leading attempts fail retryably and
attempt `attempt + j` fails non-retryably: the loop stops there — attempt
`j + 1` is the last, no sleep follows the fatal failure, and its error is
thrown. -/
lemma requestAux_fatal (outcomes : ℕ → FetchOutcome) :
    ∀ (j attempt rem : ℕ) (e : ReqError), j < rem →
      (∀ i, i < j → retryableAt outcomes (attempt + i)) →
      makeRequest (outcomes (attempt + j)) = .error e →
      shouldNotRetry e = true →
      requestAux outcomes attempt rem
        = ⟨.error e, j + 1, (List.range' attempt j).map getRetryDelay⟩ := by
  intro j
  induction j with
  | zero =>
    intro attempt rem e hlt _ herr hs
    obtain ⟨rr, rfl⟩ := Nat.exists_eq_succ_of_ne_zero (by omega : rem ≠ 0)
    rw [Nat.add_zero] at herr
    simp [List.range', requestAux_stop outcomes attempt rr e herr hs]
  | succ jj ih =>
    intro attempt rem e hlt hfail herr hs
    obtain ⟨rr, rfl⟩ := Nat.exists_eq_succ_of_ne_zero (by omega : rem ≠ 0)
    obtain ⟨e0, he0, hs0⟩ := hfail 0 (by omega)
    rw [Nat.add_zero] at he0
    have hrr : rr ≠ 0 := by omega
    have hrest := ih (attempt + 1) rr e (by omega)
      (fun i hi => by
        have h := hfail (i + 1) (by omega)
        rwa [show attempt + (i + 1) = attempt + 1 + i by omega] at h)
      (by rwa [show attempt + 1 + jj = attempt + (jj + 1) by omega]) hs
    simp only [requestAux, he0, hs0, hrr, Bool.false_eq_true, if_false, hrest]
    rw [List.range'_succ, List.map_cons]

/-- Full behaviour of the loop when every available attempt fails retryably:
all `rem` attempts run, the sleeps are the scheduled ones between
consecutive attempts, and the last error is thrown as `lastError`. -/
lemma requestAux_exhausted (outcomes : ℕ → FetchOutcome) :
    ∀ (rem attempt : ℕ) (e : ReqError), 0 < rem →
      (∀ i, i + 1 < rem → retryableAt outcomes (attempt + i)) →
      makeRequest (outcomes (attempt + (rem - 1))) = .error e →
      shouldNotRetry e = false →
      requestAux outcomes attempt rem
        = ⟨.error e, rem, (List.range' attempt (rem - 1)).map getRetryDelay⟩ := by
  intro rem
  induction rem with
  | zero => intro attempt e h0; omega
  | succ m ih =>
    intro attempt e _ hfail herr hs
    by_cases hm : m = 0
    · subst hm
      rw [show attempt + (1 - 1) = attempt by omega] at herr
      simp [requestAux, herr, hs, List.range']
    · obtain ⟨e0, he0, hs0⟩ := hfail 0 (by omega)
      rw [Nat.add_zero] at he0
      have hrest := ih (attempt + 1) e (by omega)
        (fun i hi => by
          have h := hfail (i + 1) (by omega)
          rwa [show attempt + (i + 1) = attempt + 1 + i by omega] at h)
        (by rwa [show attempt + (m + 1 - 1) = attempt + 1 + (m - 1) by omega]
            at herr) hs
      simp only [requestAux, he0, hs0, Bool.false_eq_true, if_false, hm, hrest]
      rw [show m + 1 - 1 = (m - 1) + 1 by omega, List.range'_succ, List.map_cons]

/-- Claim C9: The single-attempt timeout is the fixed 10000 ms duration and
an aborted attempt surfaces as a retryable `ApiError` with status 408; a
failed attempt with a status in 400–499 other than 408 and 429 is never
retried — at whatever attempt number it occurs, the loop ends there with no
further sleep; any other failure is retried, sleeping
`getRetryDelay(k) = 2^(k-1) * 1000` ms (1000, 2000, 4000) between attempts
`k` and `k+1`, up to 3 total attempts, after which the last error is
thrown. -/
theorem api_retry_policy :
    timeoutDuration = 10000 ∧
    makeRequest .abortError = .error (.api ⟨408, "Request Timeout"⟩) ∧
    shouldNotRetry (.api ⟨408, "Request Timeout"⟩) = false ∧
    shouldNotRetry (.api ⟨429, "Too Many Requests"⟩) = false ∧
    (∀ (s : ℕ) (t : String), 400 ≤ s → s < 500 → s ≠ 408 → s ≠ 429 →
      shouldNotRetry (.api ⟨s, t⟩) = true) ∧
    (∀ (outcomes : ℕ → FetchOutcome) (j s : ℕ) (t : String), j < 3 →
      (∀ i, i < j → retryableAt outcomes (1 + i)) →
      outcomes (1 + j) = .httpError s t →
      400 ≤ s → s < 500 → s ≠ 408 → s ≠ 429 →
      request outcomes
        = ⟨.error (.api ⟨s, t⟩), j + 1, (List.range' 1 j).map getRetryDelay⟩) ∧
    (∀ (outcomes : ℕ → FetchOutcome) (j r : ℕ), j < 3 →
      (∀ i, i < j → retryableAt outcomes (1 + i)) →
      makeRequest (outcomes (1 + j)) = .ok r →
      request outcomes = ⟨.ok r, j + 1, (List.range' 1 j).map getRetryDelay⟩) ∧
    (∀ (outcomes : ℕ → FetchOutcome) (e : ReqError),
      (∀ i, i + 1 < 3 → retryableAt outcomes (1 + i)) →
      makeRequest (outcomes 3) = .error e → shouldNotRetry e = false →
      request outcomes = ⟨.error e, 3, [getRetryDelay 1, getRetryDelay 2]⟩) ∧
    (∀ outcomes : ℕ → FetchOutcome,
      (request outcomes).attemptsMade ≤ retryAttempts ∧
      (request outcomes).delays
        = (List.range' 1 ((request outcomes).attemptsMade - 1)).map getRetryDelay) ∧
    getRetryDelay 1 = 1000 ∧ getRetryDelay 2 = 2000 ∧ getRetryDelay 3 = 4000 := by
  have hstatus : ∀ (s : ℕ) (t : String), 400 ≤ s → s < 500 → s ≠ 408 → s ≠ 429 →
      shouldNotRetry (.api ⟨s, t⟩) = true := by
    intro s t h1 h2 h3 h4
    simp [shouldNotRetry, h1, h2, h3, h4]
  refine ⟨rfl, rfl, by decide, by decide, hstatus, ?_, ?_, ?_, ?_,
    by decide, by decide, by decide⟩
  · intro outcomes j s t hj hretry hout h1 h2 h3 h4
    exact requestAux_fatal outcomes j 1 retryAttempts (.api ⟨s, t⟩) hj hretry
      (by rw [hout]; rfl) (hstatus s t h1 h2 h3 h4)
  · intro outcomes j r hj hretry hok
    exact requestAux_succeeds outcomes j 1 retryAttempts r hj hretry hok
  · intro outcomes e hretry herr hs
    have h := requestAux_exhausted outcomes retryAttempts 1 e (by decide) hretry
      (by rwa [show (1 : ℕ) + (retryAttempts - 1) = 3 by decide]) hs
    rw [request, h]
    rfl
  · intro outcomes
    exact requestAux_spec outcomes retryAttempts 1

/-- Claim C9, witness: A request whose first attempt fails with a network
error and whose second attempt fails with 404 is retried exactly once —
sleeping `getRetryDelay(1) = 1000` ms between the attempts — and then stops
at the 404 with two attempts made. -/
theorem api_retry_policy_witness :
    request (fun k => if k = 1 then .networkError "TypeError" "failed to fetch"
        else .httpError 404 "Not Found")
      = ⟨.error (.api ⟨404, "Not Found"⟩), 2, [1000]⟩ := by
  have h := api_retry_policy.2.2.2.2.2.1
    (fun k => if k = 1 then .networkError "TypeError" "failed to fetch"
      else .httpError 404 "Not Found")
    1 404 "Not Found" (by norm_num)
    (fun i hi => by
      obtain rfl : i = 0 := by omega
      exact ⟨.other "TypeError" "failed to fetch", rfl, rfl⟩)
    rfl (by norm_num) (by norm_num) (by norm_num) (by norm_num)
  rw [h]
  decide

end QuickServe
